import Mathlib

/-!
Verification of the HR server (`simple_hr_mcp.py`): access-scope resolver,
leave-accrual calculator, birthday projector, and the statement-creation
lifecycle.  Python functions are shallowly embedded as Lean definitions;
the impure read `dt.date.today()` becomes an explicit `today` parameter,
and the database becomes explicit row lists passed in a record.
-/

/-- A calendar date, as Python's `datetime.date` triple `(year, month, day)`. -/
structure Date where
  year : Nat
  month : Nat
  day : Nat
deriving DecidableEq, Repr

/-- `_is_leap` from the source: `year % 4 == 0 and (year % 100 != 0 or year % 400 == 0)`. -/
def _is_leap (year : Nat) : Bool :=
  year % 4 == 0 && (year % 100 != 0 || year % 400 == 0)

/-- Length of month `m` of year `y`, as enforced by Python's `datetime.date`. -/
def daysInMonth (y m : Nat) : Nat :=
  if m = 2 then (if _is_leap y then 29 else 28)
  else if m = 4 ∨ m = 6 ∨ m = 9 ∨ m = 11 then 30
  else 31

/-- Validity of a date triple: exactly the constructor check of `datetime.date`
(we do not model the year-9999 ceiling). -/
def Date.Valid (d : Date) : Prop :=
  1 ≤ d.year ∧ 1 ≤ d.month ∧ d.month ≤ 12 ∧ 1 ≤ d.day ∧ d.day ≤ daysInMonth d.year d.month

instance (d : Date) : Decidable d.Valid := by unfold Date.Valid; infer_instance

/-- Python's `date` comparison: lexicographic on `(year, month, day)`. -/
def dateLe (a b : Date) : Prop :=
  a.year < b.year ∨ (a.year = b.year ∧
    (a.month < b.month ∨ (a.month = b.month ∧ a.day ≤ b.day)))

/-- Strict version of `dateLe`. -/
def dateLt (a b : Date) : Prop :=
  a.year < b.year ∨ (a.year = b.year ∧
    (a.month < b.month ∨ (a.month = b.month ∧ a.day < b.day)))

instance (a b : Date) : Decidable (dateLe a b) := by unfold dateLe; infer_instance
instance (a b : Date) : Decidable (dateLt a b) := by unfold dateLt; infer_instance

/-- Cumulative day count before month `m` in year `y`
(`0, 31, 59(+1), …`); the table form of summing `daysInMonth`. -/
def daysBeforeMonth (y m : Nat) : Nat :=
  let f : Nat := if _is_leap y then 1 else 0
  match m with
  | 1 => 0
  | 2 => 31
  | 3 => 59 + f
  | 4 => 90 + f
  | 5 => 120 + f
  | 6 => 151 + f
  | 7 => 181 + f
  | 8 => 212 + f
  | 9 => 243 + f
  | 10 => 273 + f
  | 11 => 304 + f
  | 12 => 334 + f
  | _ => 365 + f

/-- Number of leap years strictly before year `y` (counting from year 1). -/
def leapsBefore (y : Nat) : Nat := (y - 1) / 4 - (y - 1) / 100 + (y - 1) / 400

/-- Rata-die style serial day number of a date; used only to express
"at most N days apart" claims. -/
def toDays (d : Date) : Nat :=
  365 * (d.year - 1) + leapsBefore d.year + daysBeforeMonth d.year d.month + d.day

/-- Round a rational to one decimal place, modelling Python's `round(x, 1)`
on the small non-tie values produced by the accrual formulas (at an exact
decimal tie such as 39.65 the program's double arithmetic can round the
other way, so no theorem below evaluates `r1` at a tie).
Written with `Rat.floor` so that concrete values evaluate by `decide`;
`r1_eq_round` below identifies it with Mathlib's `round`. -/
def r1 (q : ℚ) : ℚ := ((Rat.floor (10 * q + 1 / 2) : ℤ) : ℚ) / 10

/-- `months_between` from the source: whole month steps between two dates,
subtracting one when the end day-of-month is below the start's, floored at 0. -/
def months_between (start stop : Date) : ℤ :=
  let diff : ℤ := ((stop.year : ℤ) - start.year) * 12 + ((stop.month : ℤ) - start.month)
  max 0 (if stop.day < start.day then diff - 1 else diff)

/-- `compute_accrued_leave_days` from the source; `dt.date.today()` is the
explicit `today` argument, and the employee row is reduced to its
`hired_at` field.  Note: no day-of-month adjustment and no month clamp here. -/
def compute_accrued_leave_days (hired_at : Option Date) (used_days : ℚ) (today : Date) : ℚ :=
  match hired_at with
  | none => max 0 (28 - used_days)
  | some h =>
    let months : ℤ := ((today.year : ℤ) - h.year) * 12 + ((today.month : ℤ) - h.month)
    r1 (max 0 ((months : ℚ) * (233 / 100) - used_days))

/-- `compute_accrued_leave_days_as_of` from the source, with `today` explicit. -/
def compute_accrued_leave_days_as_of (hired_at : Option Date) (used_days : ℚ)
    (as_of today : Date) : ℚ :=
  match hired_at with
  | none =>
    let base := compute_accrued_leave_days none used_days today
    let extra := months_between today as_of
    r1 (base + (extra : ℚ) * (233 / 100))
  | some h =>
    let months := months_between h as_of
    r1 (max 0 ((months : ℚ) * (233 / 100) - used_days))

/-- `next_birthday`'s while-loop with explicit fuel: one unit per iteration. -/
def nextBirthdayAux (birth today : Date) : Nat → Nat → Option Date
  | _, 0 => none
  | year, fuel + 1 =>
    let day := if birth.month = 2 ∧ birth.day = 29 ∧ ¬ _is_leap year then 28 else birth.day
    let candidate : Date := ⟨year, birth.month, day⟩
    if dateLe today candidate then some candidate
    else nextBirthdayAux birth today (year + 1) fuel

/-- `next_birthday` from the source; two iterations always suffice
(proved below), so fuel 2 is the faithful total rendering of the loop. -/
def next_birthday (birth today : Date) : Option Date :=
  nextBirthdayAux birth today today.year 2

/-- A row of the `employees` table, restricted to the columns the access
resolver reads. -/
structure Employee where
  id : Int
  manager_id : Option Int
  team_id : Option Int
deriving DecidableEq

/-- A row of the `teams` table, restricted to the columns the access
resolver reads. -/
structure Team where
  id : Int
  lead_user_id : Option Int
deriving DecidableEq

/-- A row of the `access_rules` table. -/
structure AccessRule where
  user_id : Int
  action : String
  allow : Bool
  scope : String
  target_user_id : Option Int
  team_id : Option Int
deriving DecidableEq

/-- The datastore as explicit row lists. -/
structure HRDB where
  employees : List Employee
  teams : List Team
  access_rules : List AccessRule
deriving DecidableEq

/-- SQL `col = value` under NULL semantics: true only when both sides are
non-NULL and equal. -/
def sqlEq (a b : Option Int) : Bool :=
  match a, b with
  | some x, some y => x == y
  | _, _ => false

/-- Python truthiness of an `Optional[int]`: `None` and `0` are falsy. -/
def optIntTruthy (a : Option Int) : Bool :=
  match a with
  | some x => x != 0
  | none => false

/-- `is_manager_of` from the source:
`SELECT 1 FROM employees WHERE id = employee_id AND manager_id = manager_id`. -/
def is_manager_of (db : HRDB) (manager_id employee_id : Int) : Bool :=
  db.employees.any (fun e => e.id == employee_id && sqlEq e.manager_id (some manager_id))

/-- The team-lead lookup inside `has_access`:
`SELECT 1 FROM teams WHERE id = team_id AND lead_user_id = user_id`. -/
def is_team_lead (db : HRDB) (team_id user_id : Int) : Bool :=
  db.teams.any (fun t => t.id == team_id && sqlEq t.lead_user_id (some user_id))

/-- The manager shortcut of `has_access`:
`if target_user_id and is_manager_of(user_id, target_user_id)`. -/
def mgr_shortcut (db : HRDB) (user_id : Int) (target_user_id : Option Int) : Bool :=
  match target_user_id with
  | some t => t != 0 && is_manager_of db user_id t
  | none => false

/-- The team-lead shortcut of `has_access`: `if team_id:` then the lead lookup. -/
def lead_shortcut (db : HRDB) (user_id : Int) (team_id : Option Int) : Bool :=
  match team_id with
  | some t => t != 0 && is_team_lead db t user_id
  | none => false

/-- One row of the `access_rules` WHERE clause of `has_access`.  Note the
`SELF` branch: the SQL compares the rule row's `user_id` with the actor
(`scope = 'SELF' AND user_id = %s` bound to `user_id`), not with the
requested target. -/
def ruleMatches (r : AccessRule) (user_id : Int) (action : String)
    (target_user_id team_id : Option Int) : Bool :=
  r.user_id == user_id && r.action == action && r.allow &&
    (r.scope == "ALL"
      || (r.scope == "SELF" && r.user_id == user_id)
      || (r.scope == "USER" && sqlEq r.target_user_id target_user_id)
      || ((r.scope == "TEAM" || r.scope == "TEAM_ONLY") && sqlEq r.team_id team_id)
      || r.scope == "SUBORDINATES")

/-- `has_access` from the source. -/
def has_access (db : HRDB) (user_id : Int) (action : String)
    (target_user_id team_id : Option Int) : Bool :=
  if action == "READ_SELF" && target_user_id == some user_id then true
  else if (action == "READ_TEAM" || action == "VIEW_SALARY_SUBORDINATES")
      && mgr_shortcut db user_id target_user_id then true
  else if (action == "READ_TEAM" || action == "VIEW_SALARY_SUBORDINATES")
      && lead_shortcut db user_id team_id then true
  else if db.access_rules.any (fun r => ruleMatches r user_id action target_user_id team_id)
    then true
  else action == "READ_COLLEAGUE"

/-- Lowercasing for the alphabets the server actually sees (ASCII and
Russian Cyrillic), matching Python's `str.lower` there. -/
def lowerChar (c : Char) : Char :=
  if 'A' ≤ c ∧ c ≤ 'Z' then Char.ofNat (c.toNat + 32)
  else if 'А' ≤ c ∧ c ≤ 'Я' then Char.ofNat (c.toNat + 32)
  else if c = 'Ё' then 'ё'
  else c

/-- `s.lower()` over the relevant alphabets. -/
def ruLower (s : String) : String := String.mk (s.toList.map lowerChar)

/-- Python's `s.strip()`: drop whitespace from both ends. -/
def pyStrip (s : String) : String :=
  String.mk (((s.toList.dropWhile Char.isWhitespace).reverse.dropWhile
    Char.isWhitespace).reverse)

/-- Whether `pat` is an initial segment of `l`. -/
def leadMatch : List Char → List Char → Bool
  | [], _ => true
  | _ :: _, [] => false
  | a :: as, b :: bs => a == b && leadMatch as bs

/-- Python's substring test `pat in s`, on character lists. -/
def containsSub : List Char → List Char → Bool
  | pat, [] => leadMatch pat []
  | pat, c :: t => leadMatch pat (c :: t) || containsSub pat t

/-- `dt.date.fromisoformat` for the strict `YYYY-MM-DD` form: ten characters,
digits and dashes in place, and a calendar-valid triple; anything else is a
`ValueError` (here: `none`). -/
def parseISODate (s : String) : Option Date :=
  match s.toList with
  | [y1, y2, y3, y4, s1, m1, m2, s2, d1, d2] =>
    if y1.isDigit && y2.isDigit && y3.isDigit && y4.isDigit && s1 == '-'
        && m1.isDigit && m2.isDigit && s2 == '-' && d1.isDigit && d2.isDigit then
      let y := (y1.toNat - 48) * 1000 + (y2.toNat - 48) * 100 + (y3.toNat - 48) * 10
        + (y4.toNat - 48)
      let m := (m1.toNat - 48) * 10 + (m2.toNat - 48)
      let d := (d1.toNat - 48) * 10 + (d2.toNat - 48)
      if 1 ≤ y ∧ 1 ≤ m ∧ m ≤ 12 ∧ 1 ≤ d ∧ d ≤ daysInMonth y m then some ⟨y, m, d⟩
      else none
    else none
  | _ => none

/-- `dt.date.fromisoformat(x) if x else None`: absent or empty strings give
no date, unparsable strings raise (`Except.error`). -/
def parseOptDate (os : Option String) : Except String (Option Date) :=
  match os with
  | none => Except.ok none
  | some s =>
    if s = "" then Except.ok none
    else
      match parseISODate s with
      | some d => Except.ok (some d)
      | none => Except.error ("Invalid isoformat string: " ++ s)

/-- `resolve_requester_user_id` from the source, with the module global
`DEFAULT_REQUESTER_USER_ID` as the explicit `dflt` argument; `none` means
the `ValueError` branch. -/
def resolve_requester_user_id (candidate dflt : Option Int) : Option Int :=
  match candidate with
  | some v => some v
  | none => dflt

/-- Outcome of `statement_create`: a propagated exception, a plain error
dict, a missing-fields error dict (with its `needed` list), or the row
handed to the INSERT. -/
inductive SCResult where
  | raised (msg : String)
  | simpleError (error : String)
  | missingFields (error : String) (needed : List String)
  | created (employee_id : Int) (category : String) (body : String)
      (desired_start desired_end : Option Date) (vacation_kind : Option String)
deriving DecidableEq

/-- The missing-fields message for absent leave/termination dates. -/
def needDatesMsg : String := "укажите даты начала и конца"

/-- The missing-fields message for an absent or invalid vacation kind. -/
def needKindMsg : String := "уточните тип отпуска: очередной или за свой счёт"

/-- `statement_create` from the source, up to the INSERT (returned as
`SCResult.created` instead of executed). -/
def statement_create (candidate dflt : Option Int) (category text : String)
    (desired_start desired_end vacation_kind : Option String) : SCResult :=
  match resolve_requester_user_id candidate dflt with
  | none => .raised "Не указан requester_user_id и не задан DEFAULT_REQUESTER_USER_ID."
  | some user_id =>
    let lc := ruLower category
    if ¬ (lc = "отпуск" ∨ lc = "увольнение" ∨ lc = "другое") then
      .simpleError "Категория должна быть одной из: другое, отпуск, увольнение."
    else if pyStrip text = "" then
      .simpleError "Текст заявления пустой."
    else
      match parseOptDate desired_start with
      | .error m => .raised m
      | .ok ds =>
        match parseOptDate desired_end with
        | .error m => .raised m
        | .ok de =>
          let missing0 : List String :=
            if (lc = "отпуск" ∨ lc = "увольнение") ∧ (ds = none ∨ de = none) then
              [needDatesMsg]
            else []
          let kindStep : List String × Option String :=
            if lc = "отпуск" then
              match vacation_kind with
              | none => ([needKindMsg], vacation_kind)
              | some k =>
                if k = "" ∨ ¬ (ruLower k = "очередной" ∨ ruLower k = "за свой счёт"
                    ∨ ruLower k = "за свой счет") then
                  ([needKindMsg], vacation_kind)
                else
                  ([], some (if containsSub "счет".toList (ruLower k).toList
                    then "за свой счёт" else "очередной"))
            else ([], vacation_kind)
          let missing := missing0 ++ kindStep.1
          if missing ≠ [] then
            .missingFields
              ("Недостаточно данных для создания заявления: "
                ++ String.intercalate "; " missing ++ ".")
              missing
          else if (match ds, de with
            | some a, some b => decide (dateLt b a)
            | _, _ => false) then
            .simpleError "Дата начала не может быть позже даты окончания."
          else
            .created user_id lc (pyStrip text) ds de kindStep.2

/-- Modelled from the spec (§4.2): the month count the specification
prescribes, `(yearsDiff*12 + monthsDiff)` minus one when the reference
day-of-month is below the hire day-of-month.  Kept separate from the
source's `months_between` so the two can be compared. -/
def specMonthCount (hire ref : Date) : ℤ :=
  ((ref.year : ℤ) - hire.year) * 12 + ((ref.month : ℤ) - hire.month)
    - (if ref.day < hire.day then 1 else 0)

/-! ### Helper lemmas about rounding -/

theorem ratFloor_eq_floor (q : ℚ) : Rat.floor q = ⌊q⌋ := by
  rw [Rat.floor_def', ← Rat.floor_def]

theorem r1_eq_round (q : ℚ) : r1 q = ((round (10 * q) : ℤ) : ℚ) / 10 := by
  rw [r1, ratFloor_eq_floor, round_eq]

theorem roundQ_mono {x y : ℚ} (h : x ≤ y) : round x ≤ round y := by
  rw [round_eq, round_eq]
  exact Int.floor_le_floor (by linarith)

theorem r1_mono {x y : ℚ} (h : x ≤ y) : r1 x ≤ r1 y := by
  rw [r1_eq_round, r1_eq_round]
  have h10 : round (10 * x) ≤ round (10 * y) := roundQ_mono (by linarith)
  have : ((round (10 * x) : ℤ) : ℚ) ≤ ((round (10 * y) : ℤ) : ℚ) := by exact_mod_cast h10
  linarith

theorem r1_nonneg {x : ℚ} (h : 0 ≤ x) : 0 ≤ r1 x := by
  rw [r1_eq_round]
  have h0 : round (0 : ℚ) ≤ round (10 * x) := roundQ_mono (by linarith)
  rw [round_zero] at h0
  have : (0 : ℚ) ≤ ((round (10 * x) : ℤ) : ℚ) := by exact_mod_cast h0
  linarith

theorem r1_sub_intCast (x : ℚ) (k : ℤ) : r1 (x - (k : ℚ)) = r1 x - k := by
  rw [r1_eq_round, r1_eq_round]
  have h1 : (10 : ℚ) * (x - k) = 10 * x - ((10 * k : ℤ) : ℚ) := by push_cast; ring
  rw [h1, round_sub_int]
  push_cast
  ring

theorem intCast_le_r1 {x : ℚ} {k : ℤ} (h : (k : ℚ) ≤ x) : (k : ℚ) ≤ r1 x := by
  rw [r1_eq_round]
  have h0 : round ((10 * k : ℤ) : ℚ) ≤ round (10 * x) := by
    apply roundQ_mono; push_cast; linarith
  rw [round_intCast] at h0
  have : ((10 * k : ℤ) : ℚ) ≤ ((round (10 * x) : ℤ) : ℚ) := by exact_mod_cast h0
  push_cast at this
  linarith

theorem r1_le_intCast {x : ℚ} {k : ℤ} (h : x < (k : ℚ)) : r1 x ≤ k := by
  rw [r1_eq_round]
  have hb : (round (10 * x) : ℚ) ≤ 10 * x + 1 / 2 := round_le_add_half (10 * x)
  have hlt : ((round (10 * x) : ℤ) : ℚ) < ((10 * k : ℤ) : ℚ) + 1 / 2 := by push_cast; linarith
  have hle : round (10 * x) ≤ 10 * k := by
    by_contra hc
    push_neg at hc
    have : ((10 * k : ℤ) : ℚ) + 1 ≤ ((round (10 * x) : ℤ) : ℚ) := by exact_mod_cast hc
    linarith
  have : ((round (10 * x) : ℤ) : ℚ) ≤ ((10 * k : ℤ) : ℚ) := by exact_mod_cast hle
  push_cast at this
  linarith

theorem r1_zero : r1 0 = 0 := by
  rw [r1_eq_round]
  norm_num

/-- Pin down a concrete one-decimal rounding from floor bounds. -/
theorem r1_eq_of_bounds (q : ℚ) (n : ℤ) (h1 : (n : ℚ) ≤ 10 * q + 1 / 2)
    (h2 : 10 * q + 1 / 2 < (n : ℚ) + 1) : r1 q = (n : ℚ) / 10 := by
  rw [r1, ratFloor_eq_floor]
  rw [show ⌊10 * q + 1 / 2⌋ = n from Int.floor_eq_iff.2 ⟨h1, by linarith⟩]

/-! ### Helper lemmas about `months_between` -/

theorem months_between_nonneg (s e : Date) : 0 ≤ months_between s e := le_max_left 0 _

theorem months_between_mono {d1 d2 : Date} (h : Date) (v1 : d1.Valid) (v2 : d2.Valid)
    (hle : dateLe d1 d2) : months_between h d1 ≤ months_between h d2 := by
  unfold months_between
  unfold Date.Valid at v1 v2
  unfold dateLe at hle
  dsimp only
  split <;> split <;> omega

/-- For a reference date on or after the hire date, the source's
`months_between` agrees with the spec's unclamped month count. -/
theorem months_between_eq_spec {h d : Date} (vh : h.Valid) (vd : d.Valid)
    (hle : dateLe h d) : months_between h d = specMonthCount h d := by
  unfold months_between specMonthCount
  unfold Date.Valid at vh vd
  unfold dateLe at hle
  dsimp only
  split <;> omega

/-! ### Claims about the accrual calculator -/

/-- Claim C8: for a known hire date, fixed used days, and as-of dates
`d1 ≤ d2` with `d1` on or after the hire date, the accrued balance is
non-negative at both dates and non-decreasing from `d1` to `d2`. -/
theorem accrued_as_of_nonneg_monotone (h : Date) (u : ℚ) (d1 d2 t : Date)
    (v1 : d1.Valid) (v2 : d2.Valid) (hhd : dateLe h d1) (h12 : dateLe d1 d2) :
    0 ≤ compute_accrued_leave_days_as_of (some h) u d1 t ∧
    0 ≤ compute_accrued_leave_days_as_of (some h) u d2 t ∧
    compute_accrued_leave_days_as_of (some h) u d1 t
      ≤ compute_accrued_leave_days_as_of (some h) u d2 t := by
  unfold compute_accrued_leave_days_as_of
  dsimp only
  refine ⟨r1_nonneg (le_max_left _ _), r1_nonneg (le_max_left _ _), r1_mono ?_⟩
  have hm : months_between h d1 ≤ months_between h d2 := months_between_mono h v1 v2 h12
  have hq : ((months_between h d1 : ℤ) : ℚ) ≤ ((months_between h d2 : ℤ) : ℚ) := by
    exact_mod_cast hm
  apply max_le_max le_rfl
  have := mul_le_mul_of_nonneg_right hq (by norm_num : (0:ℚ) ≤ 233 / 100)
  linarith

/-- Witness for C8 at hire 2023-01-15, used 3, as-of 2024-01-20 and 2024-03-20. -/
theorem accrued_as_of_nonneg_monotone_witness :
    0 ≤ compute_accrued_leave_days_as_of (some ⟨2023,1,15⟩) 3 ⟨2024,1,20⟩ ⟨2024,1,20⟩ ∧
    0 ≤ compute_accrued_leave_days_as_of (some ⟨2023,1,15⟩) 3 ⟨2024,3,20⟩ ⟨2024,1,20⟩ ∧
    compute_accrued_leave_days_as_of (some ⟨2023,1,15⟩) 3 ⟨2024,1,20⟩ ⟨2024,1,20⟩
      ≤ compute_accrued_leave_days_as_of (some ⟨2023,1,15⟩) 3 ⟨2024,3,20⟩ ⟨2024,1,20⟩ :=
  accrued_as_of_nonneg_monotone ⟨2023,1,15⟩ 3 ⟨2024,1,20⟩ ⟨2024,3,20⟩ ⟨2024,1,20⟩
    (by decide) (by decide) (by decide) (by decide)

/-- Claim C9: with a known hire date, the balance at integer used-day count
`U` equals the balance at used-days 0 minus `U`, clamped at 0. -/
theorem accrued_as_of_linear_in_used (h d t : Date) (U : ℕ) (hd : dateLe h d) :
    compute_accrued_leave_days_as_of (some h) (U : ℚ) d t =
      max 0 (compute_accrued_leave_days_as_of (some h) 0 d t - (U : ℚ)) := by
  unfold compute_accrued_leave_days_as_of
  dsimp only
  have hm0 : 0 ≤ months_between h d := months_between_nonneg h d
  set m : ℤ := months_between h d with hm
  have hx0 : (0 : ℚ) ≤ (m : ℚ) * (233 / 100) := by
    have : (0:ℚ) ≤ (m : ℚ) := by exact_mod_cast hm0
    positivity
  set x : ℚ := (m : ℚ) * (233 / 100) with hx
  rw [sub_zero, max_eq_right hx0]
  by_cases hU : (U : ℚ) ≤ x
  · rw [max_eq_right (by linarith)]
    have hcast : x - (U : ℚ) = x - ((U : ℤ) : ℚ) := by push_cast; ring
    rw [hcast, r1_sub_intCast]
    have hge : ((U : ℤ) : ℚ) ≤ r1 x := intCast_le_r1 (by push_cast; linarith)
    push_cast at hge ⊢
    rw [max_eq_right (by linarith)]
  · push_neg at hU
    rw [max_eq_left (by linarith), r1_zero]
    have hle : r1 x ≤ ((U : ℤ) : ℚ) := by
      have := r1_le_intCast (show x < ((U : ℤ) : ℚ) by push_cast; linarith)
      exact_mod_cast this
    push_cast at hle
    rw [max_eq_left (by linarith)]

/-- Witness for C9 at hire 2023-01-15, as-of 2024-01-20, used 5. -/
theorem accrued_as_of_linear_in_used_witness :
    compute_accrued_leave_days_as_of (some ⟨2023,1,15⟩) ((5 : ℕ) : ℚ) ⟨2024,1,20⟩ ⟨2024,1,20⟩ =
      max 0 (compute_accrued_leave_days_as_of (some ⟨2023,1,15⟩) 0 ⟨2024,1,20⟩ ⟨2024,1,20⟩
        - ((5 : ℕ) : ℚ)) :=
  accrued_as_of_linear_in_used ⟨2023,1,15⟩ ⟨2024,1,20⟩ ⟨2024,1,20⟩ 5 (by decide)

/-- Counterexample to C2 as stated: the today-based accrued-balance
calculation (`compute_accrued_leave_days`) applies no day-of-month
adjustment, so at hire 2023-01-15 and reference 2024-01-10 it uses 12
months (28.0) while the claimed count is 11 (25.6). -/
theorem accrued_today_ignores_day_adjustment :
    compute_accrued_leave_days (some ⟨2023,1,15⟩) 0 ⟨2024,1,10⟩ ≠
      r1 (max 0 ((specMonthCount ⟨2023,1,15⟩ ⟨2024,1,10⟩ : ℚ) * (233 / 100) - 0)) := by
  have hs : specMonthCount ⟨2023,1,15⟩ ⟨2024,1,10⟩ = 11 := by decide
  rw [hs]
  unfold compute_accrued_leave_days
  dsimp only
  norm_num
  rw [r1_eq_of_bounds (699 / 25) 280 (by norm_num) (by norm_num),
      r1_eq_of_bounds (2563 / 100) 256 (by norm_num) (by norm_num)]
  norm_num

/-- Claim C2 as amended: the as-of accrued-balance calculation uses the
day-adjusted month count (equal to the spec's formula whenever the
reference is on or after the hire date), its balance is
`round1(max 0 (months·2.33 − used))`, and the spec's example
(hire 2023-01-15, used 0, as-of 2024-01-20) yields 28.0; the today-based
variant applies no day adjustment. -/
theorem accrued_as_of_month_count (h d : Date) (u : ℚ) (t : Date)
    (vh : h.Valid) (vd : d.Valid) (hle : dateLe h d) :
    compute_accrued_leave_days_as_of (some h) u d t =
      r1 (max 0 ((specMonthCount h d : ℚ) * (233 / 100) - u)) ∧
    compute_accrued_leave_days_as_of (some ⟨2023,1,15⟩) 0 ⟨2024,1,20⟩ ⟨2024,1,20⟩ = 28 := by
  constructor
  · unfold compute_accrued_leave_days_as_of
    dsimp only
    rw [months_between_eq_spec vh vd hle]
  · unfold compute_accrued_leave_days_as_of
    dsimp only
    have hm : months_between ⟨2023,1,15⟩ ⟨2024,1,20⟩ = 12 := by decide
    rw [hm]
    norm_num
    rw [r1_eq_of_bounds (699 / 25) 280 (by norm_num) (by norm_num)]
    norm_num

/-- Witness for C2 (amended) at hire 2023-01-15, reference 2024-01-10, used 2. -/
theorem accrued_as_of_month_count_witness :
    compute_accrued_leave_days_as_of (some ⟨2023,1,15⟩) 2 ⟨2024,1,10⟩ ⟨2024,1,10⟩ =
      r1 (max 0 ((specMonthCount ⟨2023,1,15⟩ ⟨2024,1,10⟩ : ℚ) * (233 / 100) - 2)) :=
  (accrued_as_of_month_count ⟨2023,1,15⟩ ⟨2024,1,10⟩ 2 ⟨2024,1,10⟩
    (by decide) (by decide) (by decide)).1

/-- Counterexample to C4 as stated: with no hire date, used 0, today
2024-01-10 and as-of 2024-03-10, the as-of variant returns 32.7
(`round(28.0 + 2*2.33, 1)`, a non-tie value on which float and rational
rounding agree), not the fixed pool `max 0 (28 − 0) = 28`. -/
theorem accrued_no_hire_date_grows :
    compute_accrued_leave_days_as_of none 0 ⟨2024,3,10⟩ ⟨2024,1,10⟩ = 327 / 10 ∧
    (327 / 10 : ℚ) ≠ max 0 (28 - 0) := by
  constructor
  · unfold compute_accrued_leave_days_as_of compute_accrued_leave_days
    dsimp only
    have hm : months_between ⟨2024,1,10⟩ ⟨2024,3,10⟩ = 2 := by decide
    rw [hm, max_eq_right (by norm_num : (0:ℚ) ≤ 28 - 0)]
    rw [r1_eq_of_bounds (28 - 0 + ((2:ℤ):ℚ) * (233/100)) 327 (by push_cast; norm_num)
      (by push_cast; norm_num)]
    norm_num
  · norm_num

/-- Claim C4 as amended: with no hire date the plain calculation returns
`max 0 (28 − used)`; the as-of variant adds `months_between(today, asOf)·2.33`
to that baseline (rounded to one decimal), so it accrues for future as-of
dates, and equals the rounded fixed pool exactly when that month count is 0. -/
theorem accrued_no_hire_date_formula :
    (∀ (u : ℚ) (t : Date), compute_accrued_leave_days none u t = max 0 (28 - u)) ∧
    (∀ (u : ℚ) (a t : Date), compute_accrued_leave_days_as_of none u a t =
      r1 (max 0 (28 - u) + (months_between t a : ℚ) * (233 / 100))) ∧
    (∀ (u : ℚ) (a t : Date), months_between t a = 0 →
      compute_accrued_leave_days_as_of none u a t = r1 (max 0 (28 - u))) := by
  refine ⟨fun u t => rfl, fun u a t => rfl, fun u a t hm => ?_⟩
  unfold compute_accrued_leave_days_as_of compute_accrued_leave_days
  dsimp only
  rw [hm]
  push_cast
  ring_nf

/-- Witness for C4 (amended) with used 4 and as-of within the first month. -/
theorem accrued_no_hire_date_formula_witness :
    compute_accrued_leave_days_as_of none 4 ⟨2024,1,25⟩ ⟨2024,1,10⟩ = r1 (max 0 (28 - 4)) :=
  accrued_no_hire_date_formula.2.2 4 ⟨2024,1,25⟩ ⟨2024,1,10⟩ (by decide)

/-! ### Claims about the access resolver -/

/-- Claim C1 (refuted — code bug): in the rule-consultation step, an enabled
`SELF`-scope rule for the actor grants access even when the requested target
differs from the actor, because the SQL compares the rule row's own `user_id`
with the actor instead of comparing the target.  Here actor 1 holds a `SELF`
rule, the target is user 2 ≠ 1, no shortcut applies, yet access is granted. -/
theorem self_scope_rule_grants_any_target :
    has_access ⟨[], [], [⟨1, "LIST_STATEMENTS", true, "SELF", none, none⟩]⟩
      1 "LIST_STATEMENTS" (some 2) none = true ∧ (2 : Int) ≠ 1 := by decide

/-- Claim C3: `has_access` always allows `READ_SELF` on oneself, always
allows `READ_COLLEAGUE` for any pair whatever the rules, and for any other
action with no matching shortcut and no matching rule it returns `false`. -/
theorem has_access_reflexive_and_fallback :
    (∀ (db : HRDB) (uid : Int) (tid : Option Int),
      has_access db uid "READ_SELF" (some uid) tid = true) ∧
    (∀ (db : HRDB) (uid : Int) (target tid : Option Int),
      has_access db uid "READ_COLLEAGUE" target tid = true) ∧
    (∀ (db : HRDB) (uid : Int) (action : String) (target tid : Option Int),
      ¬ (action = "READ_SELF" ∧ target = some uid) →
      mgr_shortcut db uid target = false →
      lead_shortcut db uid tid = false →
      (∀ r ∈ db.access_rules, ruleMatches r uid action target tid = false) →
      action ≠ "READ_COLLEAGUE" →
      has_access db uid action target tid = false) := by
  refine ⟨?_, ?_, ?_⟩
  · intro db uid tid
    simp [has_access]
  · intro db uid target tid
    unfold has_access
    repeat' split
    all_goals simp
  · intro db uid action target tid h1 hmgr hlead hrules hne
    unfold has_access
    have c1 : (action == "READ_SELF" && target == some uid) = false := by
      rcases Bool.eq_false_or_eq_true (action == "READ_SELF") with h | h
      · have ha : action = "READ_SELF" := by simpa using h
        have ht : target ≠ some uid := fun ht => h1 ⟨ha, ht⟩
        simp [h, ht]
      · simp [h]
    have c4 : (db.access_rules.any fun r => ruleMatches r uid action target tid) = false := by
      rw [List.any_eq_false]
      intro r hr
      simp [hrules r hr]
    rw [c1, hmgr, hlead, c4]
    simp [hne]

/-- Witness for C3 (deny branch) on an empty datastore. -/
theorem has_access_reflexive_and_fallback_witness :
    has_access ⟨[], [], []⟩ 7 "VIEW_SALARY" (some 9) none = false :=
  has_access_reflexive_and_fallback.2.2 ⟨[], [], []⟩ 7 "VIEW_SALARY" (some 9) none
    (by decide) (by decide) (by decide) (by simp) (by decide)

/-! ### Claims about `statement_create` -/

/-- Counterexample to C5 as stated: a `desired_start` that is not a valid
date (`"2024-02-30"`) makes `statement_create` raise (the `ValueError` from
`date.fromisoformat` propagates) instead of returning a structured error. -/
theorem statement_create_bad_date_raises :
    statement_create (some 1) none "отпуск" "нужен отпуск" (some "2024-02-30") none
      (some "очередной") =
      SCResult.raised "Invalid isoformat string: 2024-02-30" := by decide

/-- Claim C5 as amended: each of the structured validation failures —
invalid category, empty body, and bad date order — returns the
corresponding structured error value; an unparsable `desired_start` or
`desired_end` string instead raises (the `ValueError` from
`date.fromisoformat` propagates); and whenever the supplied date strings
parse (or are absent) no exception escapes `statement_create`. -/
theorem statement_create_structured_errors :
    (∀ (uid : Int) (dflt : Option Int) (category text : String) (ds de vk : Option String),
      ruLower category ≠ "отпуск" → ruLower category ≠ "увольнение" →
      ruLower category ≠ "другое" →
      statement_create (some uid) dflt category text ds de vk =
        .simpleError "Категория должна быть одной из: другое, отпуск, увольнение.") ∧
    (∀ (uid : Int) (dflt : Option Int) (category text : String) (ds de vk : Option String),
      (ruLower category = "отпуск" ∨ ruLower category = "увольнение" ∨
        ruLower category = "другое") →
      pyStrip text = "" →
      statement_create (some uid) dflt category text ds de vk =
        .simpleError "Текст заявления пустой.") ∧
    (∀ (uid : Int) (dflt : Option Int) (category text : String) (ds de vk : Option String)
      (da db2 : Date),
      (ruLower category = "отпуск" ∨ ruLower category = "увольнение" ∨
        ruLower category = "другое") →
      pyStrip text ≠ "" →
      parseOptDate ds = .ok (some da) → parseOptDate de = .ok (some db2) →
      (ruLower category = "отпуск" → ∃ k, vk = some k ∧ ¬ k = "" ∧
        (ruLower k = "очередной" ∨ ruLower k = "за свой счёт" ∨ ruLower k = "за свой счет")) →
      dateLt db2 da →
      statement_create (some uid) dflt category text ds de vk =
        .simpleError "Дата начала не может быть позже даты окончания.") ∧
    (∀ (uid : Int) (dflt : Option Int) (category text : String) (ds de vk : Option String)
      (s : String),
      (ruLower category = "отпуск" ∨ ruLower category = "увольнение" ∨
        ruLower category = "другое") →
      pyStrip text ≠ "" →
      ds = some s → s ≠ "" → parseISODate s = none →
      statement_create (some uid) dflt category text ds de vk =
        .raised ("Invalid isoformat string: " ++ s)) ∧
    (∀ (uid : Int) (dflt : Option Int) (category text : String) (ds de vk : Option String)
      (ods : Option Date) (s : String),
      (ruLower category = "отпуск" ∨ ruLower category = "увольнение" ∨
        ruLower category = "другое") →
      pyStrip text ≠ "" →
      parseOptDate ds = .ok ods →
      de = some s → s ≠ "" → parseISODate s = none →
      statement_create (some uid) dflt category text ds de vk =
        .raised ("Invalid isoformat string: " ++ s)) ∧
    (∀ (uid : Int) (dflt : Option Int) (category text : String) (ds de vk : Option String)
      (ods ode : Option Date),
      parseOptDate ds = .ok ods → parseOptDate de = .ok ode →
      ∀ msg, statement_create (some uid) dflt category text ds de vk ≠ .raised msg) := by
  refine ⟨?_, ?_, ?_, ?_, ?_, ?_⟩
  · intro uid dflt category text ds de vk h1 h2 h3
    unfold statement_create resolve_requester_user_id
    dsimp only
    rw [if_pos (by tauto)]
  · intro uid dflt category text ds de vk hcat htext
    unfold statement_create resolve_requester_user_id
    dsimp only
    rw [if_neg (by tauto), if_pos htext]
  · intro uid dflt category text ds de vk da db2 hcat htext hds hde hkind horder
    unfold statement_create resolve_requester_user_id
    dsimp only
    rw [if_neg (by tauto), if_neg htext, hds, hde]
    dsimp only
    rw [if_neg (show ¬ ((ruLower category = "отпуск" ∨ ruLower category = "увольнение")
      ∧ ((some da : Option Date) = none ∨ (some db2 : Option Date) = none)) by simp)]
    by_cases hlc : ruLower category = "отпуск"
    · obtain ⟨k, hk, hk1, hk2⟩ := hkind hlc
      rw [if_pos hlc, hk]
      dsimp only
      rw [if_neg (show ¬ (k = "" ∨ ¬ (ruLower k = "очередной" ∨ ruLower k = "за свой счёт"
        ∨ ruLower k = "за свой счет")) by tauto)]
      dsimp only
      rw [if_neg (show ¬ (([] : List String) ++ [] ≠ []) by simp)]
      rw [if_pos (show (match (some da : Option Date), (some db2 : Option Date) with
        | some a, some b => decide (dateLt b a)
        | _, _ => false) = true by simp [horder])]
    · rw [if_neg hlc]
      dsimp only
      rw [if_neg (show ¬ (([] : List String) ++ [] ≠ []) by simp)]
      rw [if_pos (show (match (some da : Option Date), (some db2 : Option Date) with
        | some a, some b => decide (dateLt b a)
        | _, _ => false) = true by simp [horder])]
  · intro uid dflt category text ds de vk s hcat htext hdss hs hparse
    subst hdss
    unfold statement_create resolve_requester_user_id parseOptDate
    dsimp only
    rw [if_neg (by tauto), if_neg htext, if_neg hs, hparse]
  · intro uid dflt category text ds de vk ods s hcat htext hds hdes hs hparse
    subst hdes
    unfold statement_create resolve_requester_user_id
    dsimp only
    rw [if_neg (by tauto), if_neg htext, hds]
    dsimp only
    unfold parseOptDate
    dsimp only
    rw [if_neg hs, hparse]
  · intro uid dflt category text ds de vk ods ode hds hde msg
    unfold statement_create resolve_requester_user_id
    dsimp only
    rw [hds, hde]
    dsimp only
    repeat' split
    all_goals simp

/-- Witness for C5 (amended): an invalid category gives the structured
category error. -/
theorem statement_create_structured_errors_witness :
    statement_create (some 1) none "xyz" "t" none none none =
      .simpleError "Категория должна быть одной из: другое, отпуск, увольнение." :=
  statement_create_structured_errors.1 1 none "xyz" "t" none none none
    (by decide) (by decide) (by decide)

/-- Claim C6 (refuted — code bug): the synonym «за свой счёт» (with «ё»)
normalizes to the stored value "очередной" — the canonical value of the
other kind — because the substring test `"счет" in kind.lower()` does not
match «ё», while «за свой счет» (with «е») is stored as "за свой счёт";
an invalid or missing kind still yields the missing-fields error. -/
theorem vacation_kind_synonyms_diverge :
    statement_create (some 1) none "отпуск" "прошу отпуск" (some "2025-01-01")
        (some "2025-01-05") (some "за свой счёт") =
      .created 1 "отпуск" "прошу отпуск" (some ⟨2025,1,1⟩) (some ⟨2025,1,5⟩)
        (some "очередной") ∧
    statement_create (some 1) none "отпуск" "прошу отпуск" (some "2025-01-01")
        (some "2025-01-05") (some "за свой счет") =
      .created 1 "отпуск" "прошу отпуск" (some ⟨2025,1,1⟩) (some ⟨2025,1,5⟩)
        (some "за свой счёт") ∧
    statement_create (some 1) none "отпуск" "прошу отпуск" (some "2025-01-01")
        (some "2025-01-05") (some "очередной") =
      .created 1 "отпуск" "прошу отпуск" (some ⟨2025,1,1⟩) (some ⟨2025,1,5⟩)
        (some "очередной") ∧
    statement_create (some 1) none "отпуск" "прошу отпуск" (some "2025-01-01")
        (some "2025-01-05") (some "внеочередной") =
      .missingFields ("Недостаточно данных для создания заявления: " ++ needKindMsg ++ ".")
        [needKindMsg] ∧
    ("очередной" : String) ≠ "за свой счёт" := by decide

/-- Claim C7: a leave-request (`отпуск`) with either desired date absent
fails with a missing-fields error whose `needed` list names the date fields,
and no row is handed to the INSERT. -/
theorem statement_create_leave_requires_dates (uid : Int) (dflt : Option Int)
    (category text : String) (ds de vk : Option String) (ods ode : Option Date)
    (hcat : ruLower category = "отпуск") (htext : pyStrip text ≠ "")
    (hds : parseOptDate ds = .ok ods) (hde : parseOptDate de = .ok ode)
    (hmiss : ods = none ∨ ode = none) :
    (∃ err needed, statement_create (some uid) dflt category text ds de vk =
        .missingFields err needed ∧ needDatesMsg ∈ needed) ∧
    (∀ (uid' : Int) (cat' body' : String) (ds' de' : Option Date) (vk' : Option String),
      statement_create (some uid) dflt category text ds de vk ≠
        .created uid' cat' body' ds' de' vk') := by
  unfold statement_create resolve_requester_user_id
  dsimp only
  rw [if_neg (by tauto), if_neg htext, hds, hde]
  dsimp only
  have hm0 : (if (ruLower category = "отпуск" ∨ ruLower category = "увольнение")
      ∧ (ods = none ∨ ode = none) then [needDatesMsg] else ([] : List String))
      = [needDatesMsg] := if_pos ⟨Or.inl hcat, hmiss⟩
  rw [hm0]
  generalize (if ruLower category = "отпуск" then
      match vk with
      | none => ([needKindMsg], vk)
      | some k =>
        if k = "" ∨ ¬(ruLower k = "очередной" ∨ ruLower k = "за свой счёт"
            ∨ ruLower k = "за свой счет") then
          ([needKindMsg], vk)
        else
          ([], some (if containsSub "счет".toList (ruLower k).toList = true
            then "за свой счёт" else "очередной"))
    else ([], vk)) = ks
  rw [if_pos (by simp)]
  refine ⟨⟨_, _, rfl, by simp⟩, ?_⟩
  intro uid' cat' body' ds' de' vk'
  simp

/-- Witness for C7: leave request with both dates absent. -/
theorem statement_create_leave_requires_dates_witness :
    (∃ err needed, statement_create (some 1) none "отпуск" "тело" none none none =
        .missingFields err needed ∧ needDatesMsg ∈ needed) ∧
    (∀ (uid' : Int) (cat' body' : String) (ds' de' : Option Date) (vk' : Option String),
      statement_create (some 1) none "отпуск" "тело" none none none ≠
        .created uid' cat' body' ds' de' vk') :=
  statement_create_leave_requires_dates 1 none "отпуск" "тело" none none none none none
    (by decide) (by decide) rfl rfl (Or.inl rfl)

/-! ### Calendar lemmas for the birthday projector -/

theorem dateLt_of_not_dateLe {a b : Date} (h : ¬ dateLe a b) : dateLt b a := by
  unfold dateLe at h
  unfold dateLt
  omega

theorem isLeap_iff (y : Nat) :
    _is_leap y = true ↔ (y % 4 = 0 ∧ (y % 100 ≠ 0 ∨ y % 400 = 0)) := by
  unfold _is_leap
  simp [Bool.and_eq_true, Bool.or_eq_true, beq_iff_eq, bne_iff_ne]

set_option maxHeartbeats 1000000 in
theorem leapsBefore_succ (y : Nat) (hy : 1 ≤ y) :
    leapsBefore (y + 1) = leapsBefore y + (if _is_leap y then 1 else 0) := by
  rcases Bool.eq_false_or_eq_true (_is_leap y) with hl | hl
  · have h' : y % 4 = 0 ∧ (y % 100 ≠ 0 ∨ y % 400 = 0) := (isLeap_iff y).1 hl
    simp only [hl, if_true]
    unfold leapsBefore
    omega
  · have h' : ¬ (y % 4 = 0 ∧ (y % 100 ≠ 0 ∨ y % 400 = 0)) := by
      rw [← isLeap_iff]; simp [hl]
    simp only [hl, Bool.false_eq_true, if_false]
    unfold leapsBefore
    omega

theorem not_leap_succ {y : Nat} (h : _is_leap y = true) : _is_leap (y + 1) = false := by
  have h4 : y % 4 = 0 := ((isLeap_iff y).1 h).1
  have h1 : (y + 1) % 4 = 1 := by omega
  unfold _is_leap
  rw [h1]
  rfl

theorem offset_bounds {d : Date} (v : d.Valid) :
    1 ≤ daysBeforeMonth d.year d.month + d.day ∧
    daysBeforeMonth d.year d.month + d.day ≤ 365 + (if _is_leap d.year then 1 else 0) := by
  obtain ⟨y, m, dd⟩ := d
  obtain ⟨hy, hm1, hm2, hd1, hd2⟩ := v
  simp only at hy hm1 hm2 hd1 hd2 ⊢
  rcases Bool.eq_false_or_eq_true (_is_leap y) with hl | hl <;>
    interval_cases m <;>
    simp_all [daysBeforeMonth, daysInMonth] <;> omega

theorem dbm_step (y m : Nat) (h1 : 1 ≤ m) (h2 : m ≤ 11) :
    daysBeforeMonth y (m + 1) = daysBeforeMonth y m + daysInMonth y m := by
  rcases Bool.eq_false_or_eq_true (_is_leap y) with hl | hl <;>
    interval_cases m <;> simp [daysBeforeMonth, daysInMonth, hl]

theorem dbm_le_dbm (y : Nat) {m1 m2 : Nat} (h1 : 1 ≤ m1) (hle : m1 ≤ m2) (h2 : m2 ≤ 12) :
    daysBeforeMonth y m1 ≤ daysBeforeMonth y m2 := by
  induction m2 with
  | zero => omega
  | succ n ih =>
    rcases Nat.lt_or_ge m1 (n + 1) with hlt | hge
    · have hn1 : 1 ≤ n := by omega
      have ha : daysBeforeMonth y m1 ≤ daysBeforeMonth y n := ih (by omega) (by omega)
      have hb : daysBeforeMonth y (n + 1) = daysBeforeMonth y n + daysInMonth y n :=
        dbm_step y n hn1 (by omega)
      omega
    · have : m1 = n + 1 := by omega
      subst this
      exact le_refl _

theorem offset_strict_mono {a b : Date} (va : a.Valid) (vb : b.Valid)
    (hy : a.year = b.year) (hlt : dateLt a b) :
    daysBeforeMonth a.year a.month + a.day < daysBeforeMonth b.year b.month + b.day := by
  obtain ⟨hya, hma1, hma2, hda1, hda2⟩ := va
  obtain ⟨hyb, hmb1, hmb2, hdb1, hdb2⟩ := vb
  unfold dateLt at hlt
  rcases Nat.lt_or_ge a.month b.month with hm | hm
  · have h1 : a.day ≤ daysInMonth b.year a.month := by rw [← hy]; exact hda2
    have h2 : daysBeforeMonth b.year (a.month + 1)
        = daysBeforeMonth b.year a.month + daysInMonth b.year a.month :=
      dbm_step _ _ hma1 (by omega)
    have h3 : daysBeforeMonth b.year (a.month + 1) ≤ daysBeforeMonth b.year b.month :=
      dbm_le_dbm _ (by omega) (by omega) hmb2
    rw [hy]
    omega
  · have hmeq : a.month = b.month := by omega
    rw [hy, hmeq]
    omega

theorem dim_feb (y : Nat) : daysInMonth y 2 = if _is_leap y then 29 else 28 := rfl

theorem dim_not_feb {m : Nat} (h : m ≠ 2) (y yy : Nat) : daysInMonth y m = daysInMonth yy m := by
  unfold daysInMonth
  simp [h]

theorem dim_feb_le (y : Nat) : daysInMonth y 2 ≤ 29 := by
  rw [dim_feb]
  split <;> omega

theorem candidate_valid {birth : Date} (vb : birth.Valid) (y : Nat) (hy : 1 ≤ y) :
    (Date.mk y birth.month
      (if birth.month = 2 ∧ birth.day = 29 ∧ ¬ _is_leap y then 28 else birth.day)).Valid := by
  obtain ⟨hby, hm1, hm2, hd1, hd2⟩ := vb
  unfold Date.Valid
  simp only
  refine ⟨hy, hm1, hm2, by split <;> omega, ?_⟩
  split
  · rename_i h
    rw [h.1, dim_feb]
    split <;> omega
  · rename_i h
    by_cases hm : birth.month = 2
    · have h29 : birth.day ≤ 29 := by
        rw [hm] at hd2
        exact le_trans hd2 (dim_feb_le _)
      rcases Bool.eq_false_or_eq_true (_is_leap y) with hl | hl
      · rw [hm, dim_feb]
        simp only [hl, if_true]
        omega
      · have hne : birth.day ≠ 29 := fun hd => h ⟨hm, hd, by simp [hl]⟩
        rw [hm, dim_feb]
        simp only [hl, Bool.false_eq_true, if_false]
        omega
    · rw [dim_not_feb hm y birth.year]
      exact hd2

theorem dbm_next_year (y m : Nat) (hm1 : 1 ≤ m) (hm2 : m ≤ 12) :
    daysBeforeMonth (y + 1) m + (if _is_leap y then 1 else 0) ≤ daysBeforeMonth y m + 1 := by
  rcases Bool.eq_false_or_eq_true (_is_leap y) with hl | hl
  · have hl1 : _is_leap (y + 1) = false := not_leap_succ hl
    interval_cases m <;> simp [daysBeforeMonth, hl, hl1]
  · rcases Bool.eq_false_or_eq_true (_is_leap (y + 1)) with hl1 | hl1 <;>
      interval_cases m <;> simp [daysBeforeMonth, hl, hl1]

theorem offset_next_year {birth : Date} (vb : birth.Valid) (y : Nat) :
    daysBeforeMonth (y + 1) birth.month
      + (if birth.month = 2 ∧ birth.day = 29 ∧ ¬ _is_leap (y + 1) then 28 else birth.day)
      + (if _is_leap y then 1 else 0)
    ≤ daysBeforeMonth y birth.month
      + (if birth.month = 2 ∧ birth.day = 29 ∧ ¬ _is_leap y then 28 else birth.day) + 2 := by
  obtain ⟨hby, hm1, hm2, hd1, hd2⟩ := vb
  have hA1 := dbm_next_year y birth.month hm1 hm2
  have hA2 : (if birth.month = 2 ∧ birth.day = 29 ∧ ¬ _is_leap (y + 1) then 28 else birth.day)
      ≤ (if birth.month = 2 ∧ birth.day = 29 ∧ ¬ _is_leap y then 28 else birth.day) + 1 := by
    by_cases hmd : birth.month = 2 ∧ birth.day = 29
    · obtain ⟨hmm, hdd⟩ := hmd
      simp only [hmm, hdd]
      norm_num
      split <;> split <;> omega
    · have c1 : ¬ (birth.month = 2 ∧ birth.day = 29 ∧ ¬ _is_leap (y + 1)) := by tauto
      have c2 : ¬ (birth.month = 2 ∧ birth.day = 29 ∧ ¬ _is_leap y) := by tauto
      rw [if_neg c1, if_neg c2]
      omega
  omega

theorem toDays_mk (y m d : Nat) :
    toDays ⟨y, m, d⟩ = 365 * (y - 1) + leapsBefore y + daysBeforeMonth y m + d := rfl

theorem nextBirthdayAux_succ (birth today : Date) (year fuel : Nat) :
    nextBirthdayAux birth today year (fuel + 1) =
      (if dateLe today ⟨year, birth.month,
          if birth.month = 2 ∧ birth.day = 29 ∧ ¬ _is_leap year then 28 else birth.day⟩
        then some ⟨year, birth.month,
          if birth.month = 2 ∧ birth.day = 29 ∧ ¬ _is_leap year then 28 else birth.day⟩
        else nextBirthdayAux birth today (year + 1) fuel) := rfl

/-- Claim C10: for every valid birth date and reference date, `next_birthday`
returns a valid date that is on or after the reference and at most 366 days
after it; when the birth date is February 29 and the returned year is not a
leap year the candidate used is February 28 of that year; and the loop
terminates within two iterations (any fuel of at least 2 gives the same
result). -/
theorem next_birthday_spec (birth today : Date) (vb : birth.Valid) (vt : today.Valid) :
    ∃ d : Date, next_birthday birth today = some d ∧ d.Valid ∧ dateLe today d ∧
      toDays d ≤ toDays today + 366 ∧
      d.month = birth.month ∧
      (birth.month = 2 ∧ birth.day = 29 ∧ _is_leap d.year = false → d.month = 2 ∧ d.day = 28) ∧
      (∀ fuel : Nat, nextBirthdayAux birth today today.year (fuel + 2) = some d) := by
  have hty1 : 1 ≤ today.year := vt.1
  by_cases h1 : dateLe today ⟨today.year, birth.month,
      if birth.month = 2 ∧ birth.day = 29 ∧ ¬ _is_leap today.year then 28 else birth.day⟩
  · refine ⟨_, ?_, candidate_valid vb today.year hty1, h1, ?_, rfl, ?_, ?_⟩
    · unfold next_birthday
      rw [nextBirthdayAux_succ, if_pos h1]
    · have hb1 := offset_bounds (candidate_valid vb today.year hty1)
      have hbt := offset_bounds vt
      unfold toDays at *
      dsimp only at hb1 ⊢
      rcases Bool.eq_false_or_eq_true (_is_leap today.year) with hl | hl <;>
        simp [hl] at hb1 hbt ⊢ <;> omega
    · rintro ⟨hbm, hbd, hl⟩
      dsimp only at hl ⊢
      exact ⟨hbm, if_pos ⟨hbm, hbd, by simp [hl]⟩⟩
    · intro fuel
      rw [show fuel + 2 = (fuel + 1) + 1 from rfl, nextBirthdayAux_succ, if_pos h1]
  · have hlt : dateLt ⟨today.year, birth.month,
        if birth.month = 2 ∧ birth.day = 29 ∧ ¬ _is_leap today.year then 28 else birth.day⟩
        today := dateLt_of_not_dateLe h1
    have h2 : dateLe today ⟨today.year + 1, birth.month,
        if birth.month = 2 ∧ birth.day = 29 ∧ ¬ _is_leap (today.year + 1) then 28
        else birth.day⟩ := Or.inl (Nat.lt_succ_self _)
    refine ⟨_, ?_, candidate_valid vb (today.year + 1) (by omega), h2, ?_, rfl, ?_, ?_⟩
    · unfold next_birthday
      rw [nextBirthdayAux_succ, if_neg h1, nextBirthdayAux_succ, if_pos h2]
    · have hsm := offset_strict_mono (candidate_valid vb today.year hty1) vt rfl hlt
      have hny := offset_next_year vb today.year
      have hstep := leapsBefore_succ today.year hty1
      unfold toDays
      dsimp only at hsm ⊢
      rcases Bool.eq_false_or_eq_true (_is_leap today.year) with hl | hl <;>
        simp [hl] at hny hstep hsm ⊢ <;> omega
    · rintro ⟨hbm, hbd, hl⟩
      dsimp only at hl ⊢
      exact ⟨hbm, if_pos ⟨hbm, hbd, by simp [hl]⟩⟩
    · intro fuel
      rw [show fuel + 2 = (fuel + 1) + 1 from rfl, nextBirthdayAux_succ, if_neg h1,
        nextBirthdayAux_succ, if_pos h2]

/-- Witness for C10 at the spec's example: birth 2000-02-29, reference
2025-03-01 (the projector returns 2026-02-28 there). -/
theorem next_birthday_spec_witness :
    ∃ d : Date, next_birthday ⟨2000,2,29⟩ ⟨2025,3,1⟩ = some d ∧ d.Valid ∧
      dateLe ⟨2025,3,1⟩ d ∧
      toDays d ≤ toDays ⟨2025,3,1⟩ + 366 ∧
      d.month = (⟨2000,2,29⟩ : Date).month ∧
      ((⟨2000,2,29⟩ : Date).month = 2 ∧ (⟨2000,2,29⟩ : Date).day = 29 ∧
        _is_leap d.year = false → d.month = 2 ∧ d.day = 28) ∧
      (∀ fuel : Nat, nextBirthdayAux ⟨2000,2,29⟩ ⟨2025,3,1⟩ (⟨2025,3,1⟩ : Date).year
        (fuel + 2) = some d) :=
  next_birthday_spec ⟨2000,2,29⟩ ⟨2025,3,1⟩ (by decide) (by decide)
